import Mathlib

/-!
Verification of the routing, filter-chain, mount and error-handling core of
the highnoon server framework, shallowly embedded from the Rust source
(src/router.rs, src/request.rs, src/filter.rs, src/app.rs, src/error.rs,
src/response.rs).
-/

set_option maxHeartbeats 1000000

namespace Highnoon

/-- HTTP methods are modelled as strings (hyper::Method wraps a method name). -/
abbrev Method := String

/-- Status codes are modelled as their numeric value (hyper::StatusCode). -/
abbrev StatusCode := Nat

/-- Models highnoon's `Response` (src/response.rs): a status code plus a body.
Headers and streaming bodies are not relevant to any claim and are omitted;
`Body::empty()` is the empty string. -/
structure Response where
  status : StatusCode
  body : String
deriving Repr, DecidableEq

/-- Models `Response::ok()`: empty response with status 200. -/
def Response.ok : Response := ⟨200, ""⟩

/-- Models `Response::status(s)`: empty response with the given status code. -/
def Response.ofStatus (s : StatusCode) : Response := ⟨s, ""⟩

/-- Models highnoon's `Error` (src/error.rs): either an HTTP-intended error
carrying a `Response`, or an internal error carrying an arbitrary cause
(`anyhow::Error`, modelled as a message string). -/
inductive Error where
  | Http (resp : Response)
  | Internal (err : String)
deriving Repr, DecidableEq

/-- Models `impl Responder for Error` (src/error.rs lines 43-53): an
`Error::Http` converts into exactly the carried response; an `Error::Internal`
converts into `Response::status(500)` regardless of the cause. -/
def Error.intoResponse : Error → Except Error Response
  | .Http resp => .ok resp
  | .Internal _ => .ok (Response.ofStatus 500)

/-- Models `Error::http` applied to a `StatusCode` responder: the responder
conversion for a status code is `Ok(Response::status(code))`
(src/responder.rs lines 49-53), so `Error::http(code)` is
`Error::Http(Response::status(code))`. -/
def Error.httpStatus (s : StatusCode) : Error := .Http (Response.ofStatus s)

/-- Entry list lookup used by `Params::find`: first binding for the key. -/
def findPair : List (String × String) → String → Option String
  | [], _ => none
  | (k, v) :: rest, key => if k = key then some v else findPair rest key

/-- Entry list insertion used by `Params::insert`: replace the binding of the
key if present (map semantics of route_recognizer's Params), else append. -/
def insertPair : List (String × String) → String → String → List (String × String)
  | [], key, v => [(key, v)]
  | (k, w) :: rest, key, v =>
    if k = key then (key, v) :: rest else (k, w) :: insertPair rest key v

/-- Models `route_recognizer::Params` (the parameter map type used by
`Request`): a map from capture name to captured string. -/
structure Params where
  entries : List (String × String)
deriving Repr, DecidableEq

/-- Models `Params::new()`. -/
def Params.new : Params := ⟨[]⟩

/-- Models `Params::find`. -/
def Params.find (ps : Params) (key : String) : Option String :=
  findPair ps.entries key

/-- Models `Params::insert`. -/
def Params.insert (ps : Params) (key v : String) : Params :=
  ⟨insertPair ps.entries key v⟩

/-- Models the body of `Request::merge_params` (src/request.rs lines 44-48):
every entry of `other` is inserted into `self`, so on a key collision the
value from `other` wins. -/
def Params.merge (self other : Params) : Params :=
  other.entries.foldl (fun acc kv => acc.insert kv.1 kv.2) self

/-- Modelled from the spec: path segmentation for the pattern mini-language of
the matchit crate (the path-matching trie used by `Router`, which is an
external dependency and not part of this repository's sources). Splits on
slashes; accumulator holds the current segment reversed. -/
def splitSegsAux (cur : List Char) : List Char → List (List Char)
  | [] => [cur.reverse]
  | c :: rest => if c = '/' then cur.reverse :: splitSegsAux [] rest
                 else splitSegsAux (c :: cur) rest

/-- Modelled from the spec: a path is the list of its nonempty
slash-separated segments. -/
def splitSegs (s : List Char) : List (List Char) :=
  (splitSegsAux [] s).filter (fun seg => !seg.isEmpty)

/-- Modelled from the spec: joining segments back with slashes; the catch-all
capture is the remaining path with no leading slash. -/
def joinSegs : List (List Char) → List Char
  | [] => []
  | [s] => s
  | s :: rest => s ++ '/' :: joinSegs rest

/-- Modelled from the spec: segment-wise matching of the pattern mini-language
`/literal/:capture/*trailingCapture`. A `:name` segment captures exactly one
path segment; a `*name` segment must be final and captures the whole
remaining path (joined with slashes, no leading slash); a literal segment
must be equal to the path segment. -/
def matchSegs : List (List Char) → List (List Char) → Option (List (String × String))
  | [], [] => some []
  | [], _ :: _ => none
  | pseg :: prest, segs =>
    match pseg with
    | '*' :: name =>
      if prest.isEmpty then some [(⟨name⟩, ⟨joinSegs segs⟩)] else none
    | ':' :: name =>
      match segs with
      | [] => none
      | s :: srest => (matchSegs prest srest).map (fun ps => (⟨name⟩, ⟨s⟩) :: ps)
    | _ =>
      match segs with
      | [] => none
      | s :: srest => if pseg = s then matchSegs prest srest else none

/-- Modelled from the spec: whether the pattern matches the path, and the
captured parameters if so. -/
def matchPattern (pattern path : String) : Option Params :=
  (matchSegs (splitSegs pattern.data) (splitSegs path.data)).map (fun ps => ⟨ps⟩)

/-- Modelled from the spec: one matching trie (`matchit::Node`), carrying the
registered (pattern, endpoint) pairs. -/
structure Matcher (ε : Type) where
  routes : List (String × ε)

/-- Modelled from the spec: an empty trie (`matchit::Node::new()`). -/
def Matcher.new {ε : Type} : Matcher ε := ⟨[]⟩

/-- First registered pattern matching the path, with its endpoint. -/
def atList {ε : Type} : List (String × ε) → String → Option (ε × Params)
  | [], _ => none
  | (pat, e) :: rest, path =>
    match matchPattern pat path with
    | some ps => some (e, ps)
    | none => atList rest path

/-- Modelled from the spec: `matchit::Node::at`, resolving a path against the
trie to an endpoint and captured parameters. -/
def Matcher.atPath {ε : Type} (m : Matcher ε) (path : String) : Option (ε × Params) :=
  atList m.routes path

/-- Modelled from the spec: `matchit::Node::insert` returns an error on a
conflicting registration; registering the same pattern twice is a conflict. -/
def Matcher.insert {ε : Type} (m : Matcher ε) (pat : String) (e : ε) :
    Except String (Matcher ε) :=
  if m.routes.any (fun r => r.1 == pat) then .error "error inserting route into matcher"
  else .ok ⟨m.routes ++ [(pat, e)]⟩

/-- Models highnoon's `Router` (src/router.rs lines 12-15): a per-method
matching trie plus a method-agnostic `all` trie. Endpoints are abstract
(`ε` stands for boxed `dyn Endpoint` values). -/
structure Router (ε : Type) where
  methods : List (Method × Matcher ε)
  all : Matcher ε

/-- Models `Router::new()`. -/
def Router.new {ε : Type} : Router ε := ⟨[], Matcher.new⟩

/-- Models `self.methods.get(method)` on the method map. -/
def Router.findMatcher {ε : Type} (r : Router ε) (m : Method) : Option (Matcher ε) :=
  (r.methods.find? (fun kv => kv.1 == m)).map Prod.snd

/-- Map update used by `self.methods.entry(method).or_insert_with(...)`:
replace the binding of the method if present, else append it. -/
def setMatcher {ε : Type} : List (Method × Matcher ε) → Method → Matcher ε →
    List (Method × Matcher ε)
  | [], m, mt => [(m, mt)]
  | (k, v) :: rest, m, mt =>
    if k == m then (m, mt) :: rest else (k, v) :: setMatcher rest m mt

/-- Models `Router::add` (src/router.rs lines 37-48): insert into the trie for
the method (creating it if absent). The source calls
`.expect("error inserting route into matcher")`, i.e. it panics at
registration time when the trie insert fails; the panic is modelled as the
`Except.error` outcome. -/
def Router.add {ε : Type} (r : Router ε) (method : Method) (path : String) (ep : ε) :
    Except String (Router ε) :=
  let mt := (r.findMatcher method).getD Matcher.new
  (mt.insert path ep).map (fun mt2 => { r with methods := setMatcher r.methods method mt2 })

/-- Models `Router::add_all` (src/router.rs lines 50-52). -/
def Router.addAll {ε : Type} (r : Router ε) (path : String) (ep : ε) :
    Except String (Router ε) :=
  (r.all.insert path ep).map (fun mt2 => { r with all := mt2 })

/-- The endpoint reference held by a `RouteTarget`: either a registered
endpoint, or one of the two synthetic endpoints `method_not_allowed` and
`not_found` defined in src/router.rs lines 92-98. -/
inductive EndpointRef (ε : Type) where
  | user (e : ε)
  | methodNotAllowed
  | notFound
deriving Repr, DecidableEq

/-- Models `RouteTarget` (src/router.rs lines 17-23). -/
structure RouteTarget (ε : Type) where
  ep : EndpointRef ε
  params : Params

/-- Models `self.methods.get(method).and_then(|matcher| matcher.at(path).ok())`,
the method-specific match attempt at the head of `Router::lookup`. -/
def Router.methodMatch {ε : Type} (r : Router ε) (method : Method) (path : String) :
    Option (ε × Params) :=
  (r.findMatcher method).bind (fun mt => mt.atPath path)

/-- Models the third arm's condition in `Router::lookup`:
`self.methods.iter().filter(|(k, _)| k != method).any(|(_, matcher)| matcher.at(path).is_ok())`. -/
def Router.otherMethodMatches {ε : Type} (r : Router ε) (method : Method) (path : String) :
    Bool :=
  (r.methods.filter (fun kv => kv.1 != method)).any (fun kv => (kv.2.atPath path).isSome)

/-- Models `Router::lookup` (src/router.rs lines 54-89): method-specific trie
first, then the `all` trie, then a synthetic 405 if any other method's trie
matches, else a synthetic 404. -/
def Router.lookup {ε : Type} (r : Router ε) (method : Method) (path : String) :
    RouteTarget ε :=
  match r.methodMatch method path with
  | some (e, ps) => ⟨.user e, ps⟩
  | none =>
    match r.all.atPath path with
    | some (e, ps) => ⟨.user e, ps⟩
    | none =>
      if r.otherMethodMatches method path then ⟨.methodNotAllowed, Params.new⟩
      else ⟨.notFound, Params.new⟩

/-- Observable events used to instrument user-supplied code (filters,
endpoint handlers, the mount context conversion, and the state's context
factory) so that execution order and invocation counts can be stated. -/
inductive Event where
  | pre (name : String)
  | post (name : String)
  | handle (name : String)
  | conv
  | newCtx
deriving Repr, DecidableEq

/-- A traced computation: the list of events it emits plus its value. -/
abbrev Traced (α : Type) := List Event × α

/-- Endpoints and filters return `Result<Response>` with highnoon's `Error`. -/
abbrev EResult := Except Error Response

/-- Models an incoming `Request` (src/request.rs lines 15-21), generic over
the context type `γ` (`S::Context`). The `app` handle and `remote_addr` are
plumbing that no claim observes and are omitted; `inner` contributes its
method and URI path. -/
structure Request (γ : Type) where
  context : γ
  params : Params
  method : Method
  path : String

/-- Models `Request::new` (src/request.rs lines 24-38), with `inner` passed
as its (method, path) pair. -/
def Request.new {γ : Type} (inner : Method × String) (params : Params) (context : γ) :
    Request γ :=
  ⟨context, params, inner.1, inner.2⟩

/-- Models `Request::into_parts` (src/request.rs lines 40-42): the inner
(method, path) pair, the parameters and the context. -/
def Request.intoParts {γ : Type} (r : Request γ) : (Method × String) × Params × γ :=
  ((r.method, r.path), r.params, r.context)

/-- Models `Request::merge_params` (src/request.rs lines 44-48). -/
def Request.mergeParams {γ : Type} (r : Request γ) (params : Params) : Request γ :=
  { r with params := r.params.merge params }

/-- Models `Request::param` (src/request.rs lines 113-118): the captured
string if the parameter is present, else an HTTP-intended error carrying a
400 Bad Request response (`Error::http(StatusCode::BAD_REQUEST)`). -/
def Request.param {γ : Type} (r : Request γ) (param : String) : Except Error String :=
  match r.params.find param with
  | some v => .ok v
  | none => .error (Error.httpStatus 400)

/-- A (traced) endpoint: the `Endpoint` contract `call(Request) -> Result<Response>`
(src/endpoint.rs lines 30-32), with the events the user code emits made
explicit. -/
abbrev Endpoint (γ : Type) := Request γ → Traced EResult

/-- The two filter behavior patterns of user-supplied filters (spec section
4.2): a pass-through filter that emits a `pre` event, forwards the request to
its continuation and emits a `post` event after it returns; and a
short-circuiting filter that returns a response without invoking its
continuation. Filter code itself is user code; `Next::next` below is the
repository's. -/
inductive FilterB where
  | wrap (name : String)
  | stop (resp : Response)

/-- Driving a filter chain over an endpoint: the recursion performed by
`Next::next` (src/filter.rs lines 30-38), with the two filter behaviors
inlined. The lemmas `next_cons` and `next_nil` below restate it in the exact
shape of the source. -/
def runChain {γ : Type} (ep : Endpoint γ) : List FilterB → Request γ → Traced EResult
  | head :: rest, req =>
    match head with
    | .wrap nm =>
      let out := runChain ep rest req
      (Event.pre nm :: (out.1 ++ [Event.post nm]), out.2)
    | .stop resp => ([], .ok resp)
  | [], req => ep req

/-- Models `Next` (src/filter.rs lines 18-24): the terminal endpoint and the
remaining filters. -/
structure Next (γ : Type) where
  ep : Endpoint γ
  rest : List FilterB

/-- Models `Next::next` (src/filter.rs lines 30-38). -/
def Next.next {γ : Type} (n : Next γ) (req : Request γ) : Traced EResult :=
  runChain n.ep n.rest req

/-- Models `Filter::apply` for the two user filter behavior patterns: the
pass-through filter emits its `pre` event, invokes `next`, emits its `post`
event and passes the result through; the short-circuiting filter returns its
response without invoking `next`. -/
def FilterB.apply {γ : Type} (f : FilterB) (req : Request γ) (next : Next γ) :
    Traced EResult :=
  match f with
  | .wrap nm =>
    let out := next.next req
    (Event.pre nm :: (out.1 ++ [Event.post nm]), out.2)
  | .stop resp => ([], .ok resp)

/-- Models an `App` (src/app.rs lines 24-28): shared state (represented by
its `new_context` factory, instrumented), a router over traced endpoints,
and the filter chain in registration order (`App::with` pushes to the back,
src/app.rs lines 124-129). -/
structure App (γ : Type) where
  newContext : Traced γ
  routes : Router (Endpoint γ)
  filters : List FilterB

/-- Models the synthetic endpoints: a registered endpoint is called directly;
`method_not_allowed` and `not_found` (src/router.rs lines 92-98) return
status-only responses through the `Responder` conversion for `StatusCode`. -/
def EndpointRef.call {γ : Type} (e : EndpointRef (Endpoint γ)) : Endpoint γ :=
  match e with
  | .user f => f
  | .methodNotAllowed => fun _ => ([], .ok (Response.ofStatus 405))
  | .notFound => fun _ => ([], .ok (Response.ofStatus 404))

/-- The reserved mount catch-all parameter name (src/app.rs line 90). -/
def reservedRest : String := "-highnoon-path-rest-"

/-- Models `MountedApp::call` (src/app.rs lines 204-225), for a mount of a
child app with context type `δ` inside a parent with context type `γ`:
deconstruct the request, read the reserved rest capture (the source calls
`.expect(...)` on it — the panic on a missing capture is modelled as `none`),
look the rest path up in the child's router, rebuild the request with the
converted context (`context.into()`, the caller-supplied `From` conversion,
here `conv` instrumented with the events it emits), merge the child's
captured parameters over the outer ones, and drive the child's own filter
chain. -/
def MountedApp.call {γ δ : Type} (child : App δ) (conv : γ → Traced δ)
    (req : Request γ) : Option (Traced EResult) :=
  match req.intoParts with
  | (inner, params, context) =>
    match params.find reservedRest with
    | none => none
    | some pathRest =>
      let rt := child.routes.lookup inner.1 pathRest
      let convOut := conv context
      let req2 : Request δ := Request.new inner params convOut.2
      let req2 := req2.mergeParams rt.params
      let next : Next δ := ⟨rt.ep.call, child.filters⟩
      let out := next.next req2
      some (convOut.1 ++ out.1, out.2)

/-- Models the per-request dispatch inside `App::internal_serve`
(src/app.rs lines 167-184): route lookup, a fresh context from the state's
own factory (`app.state.new_context()`), then the app's filter chain; an
error outcome is centrally converted by `err.into_response()`. -/
def App.serveRequest {γ : Type} (app : App γ) (method : Method) (path : String) :
    Traced (Except Error Response) :=
  let rt := app.routes.lookup method path
  let ctxOut := app.newContext
  let req : Request γ := Request.new (method, path) rt.params ctxOut.2
  let next : Next γ := ⟨rt.ep.call, app.filters⟩
  let out := next.next req
  (ctxOut.1 ++ out.1,
    match out.2 with
    | .ok resp => .ok resp
    | .error err => err.intoResponse)

/-- Models `Route::mount` (src/app.rs lines 86-93): the mount pattern is the
route's path with `"/*-highnoon-path-rest-"` appended, registered through
`Route::all`/`Router::add_all`. -/
def mountPattern (path : String) : String :=
  path ++ "/*" ++ reservedRest

/-- A handler endpoint used to observe execution: emits a `handle` event and
returns the value of a pure user function. -/
def handlerEp {γ : Type} (name : String) (f : Request γ → EResult) : Endpoint γ :=
  fun req => ([Event.handle name], f req)

/-- All endpoints reachable from a router's tries (every registered value). -/
def Router.allEndpoints {ε : Type} (r : Router ε) : List ε :=
  (r.methods.map (fun kv => kv.2.routes.map Prod.snd)).flatten ++ r.all.routes.map Prod.snd

/-- Number of occurrences of an event in a trace. -/
def countEvent (ev : Event) : List Event → Nat
  | [] => 0
  | e :: rest => (if e = ev then 1 else 0) + countEvent ev rest

/-- An endpoint is context-clean when the user code it runs never emits a
`conv` or `newCtx` instrumentation event (those are reserved for the mount
conversion and the state's context factory). -/
def Endpoint.ctxClean {γ : Type} (e : Endpoint γ) : Prop :=
  ∀ req, countEvent Event.conv (e req).1 = 0 ∧ countEvent Event.newCtx (e req).1 = 0

/-- An app whose registered endpoints are all context-clean. -/
def App.ctxClean {γ : Type} (app : App γ) : Prop :=
  ∀ e, e ∈ app.routes.allEndpoints → e.ctxClean

/-! Concrete instances used by witnesses and counterexamples. -/

/-- A concrete router: GET `/a`, POST `/c`, and an all-methods `/b`
(endpoints are numeric tags). -/
def wRouter : Router Nat :=
  ⟨[("GET", ⟨[("/a", 1)]⟩), ("POST", ⟨[("/c", 3)]⟩)], ⟨[("/b", 2)]⟩⟩

/-- A concrete router with the two patterns of the capture-semantics claim. -/
def c2Router : Router Nat :=
  ⟨[("GET", ⟨[("/echo/:name", 1), ("/static/*path", 2)]⟩)], Matcher.new⟩

/-- The router of a parent app that mounted a child at `/api/:version`:
`Route::mount` appends `"/*-highnoon-path-rest-"` to the mount path and
registers the adapter through `Route::all`, i.e. in the `all` trie. Only the
captured parameters matter here, so the endpoint type is `Unit`. -/
def c3Outer : Router Unit := ⟨[], ⟨[(mountPattern "/api/:version", ())]⟩⟩

/-- The child router with the route `/user/:name`. -/
def c3Child : Router Unit := ⟨[("GET", ⟨[("/user/:name", ())]⟩)], Matcher.new⟩

/-- The parent-side lookup of the request path `/api/v2/user/bob`. -/
def c3OuterTarget : RouteTarget Unit := c3Outer.lookup "GET" "/api/v2/user/bob"

/-- The rest path extracted from the reserved capture, as `MountedApp::call`
does. -/
def c3RestPath : String := (c3OuterTarget.params.find reservedRest).getD ""

/-- The child-side lookup of the rest path. -/
def c3ChildTarget : RouteTarget Unit := c3Child.lookup "GET" c3RestPath

/-- The merged parameter set of the mounted dispatch: the outer parameters
(as passed to `Request::new` inside `MountedApp::call`) overlaid with the
child lookup's captures via `merge_params`. -/
def c3Merged : Params := Params.merge c3OuterTarget.params c3ChildTarget.params

/-- A probe endpoint that reports, in the response body, the `version`,
`name` and reserved rest parameters of the request it receives. -/
def c3Probe : Endpoint Unit := fun req =>
  ([], .ok ⟨200, (req.params.find "version").getD "-" ++ ","
      ++ (req.params.find "name").getD "-" ++ ","
      ++ (req.params.find reservedRest).getD "-"⟩)

/-- The mounted child app serving `/user/:name` with the probe endpoint. -/
def c3ChildApp : App Unit :=
  ⟨([], ()), ⟨[("GET", ⟨[("/user/:name", c3Probe)]⟩)], Matcher.new⟩, []⟩

/-- The outer request as `internal_serve` builds it: the parameters are the
parent lookup's captures. -/
def c3OuterReq : Request Unit :=
  Request.new ("GET", "/api/v2/user/bob") c3OuterTarget.params ()

/-- A concrete child app for the context-conversion witness: one GET route
with a labelled handler, one pass-through filter, and a context factory that
emits a `newCtx` event. -/
def c4Child : App Nat :=
  ⟨([Event.newCtx], 0),
   ⟨[("GET", ⟨[("/user/:name", handlerEp "u" (fun _ => .ok Response.ok))]⟩)], Matcher.new⟩,
   [FilterB.wrap "child"]⟩

/-- The outer request arriving at the mount adapter. -/
def c4Req : Request Unit :=
  ⟨(), ⟨[("version", "v2"), (reservedRest, "user/bob")]⟩, "GET", "/api/v2/user/bob"⟩

/-- A pattern that declares the reserved mount capture name as an ordinary
user parameter. -/
def c7Pattern : String := "/x/:-highnoon-path-rest-"

/-- The router produced by a first successful `add` of GET `/a`. -/
def c8Router : Router Nat := ⟨[("GET", ⟨[("/a", 1)]⟩)], Matcher.new⟩

/-- A concrete request carrying one captured parameter. -/
def c10Req : Request Unit := ⟨(), ⟨[("name", "bob")]⟩, "GET", "/echo/bob"⟩

/-! Helper lemmas. -/

theorem findPair_insertPair_self (l : List (String × String)) (k v : String) :
    findPair (insertPair l k v) k = some v := by
  induction l with
  | nil => simp [insertPair, findPair]
  | cons hd tl ih =>
    obtain ⟨k1, v1⟩ := hd
    by_cases h : k1 = k
    · simp [insertPair, h, findPair]
    · simp [insertPair, h, findPair, ih]

theorem findPair_insertPair_ne (l : List (String × String)) (key v k : String)
    (hne : key ≠ k) : findPair (insertPair l key v) k = findPair l k := by
  induction l with
  | nil => simp [insertPair, findPair, hne]
  | cons hd tl ih =>
    obtain ⟨k1, v1⟩ := hd
    by_cases h : k1 = key
    · simp [insertPair, h, findPair, hne]
    · simp [insertPair, h, findPair, ih]

theorem findPair_eq_none_of_not_mem (l : List (String × String)) (k : String)
    (h : k ∉ l.map Prod.fst) : findPair l k = none := by
  induction l with
  | nil => simp [findPair]
  | cons hd tl ih =>
    obtain ⟨k1, v1⟩ := hd
    simp only [List.map_cons, List.mem_cons] at h
    push_neg at h
    have h1 : ¬ k1 = k := fun hh => h.1 hh.symm
    simp [findPair, h1, ih h.2]

theorem find_foldl_insert_of_none (k : String) :
    ∀ (l : List (String × String)) (acc : Params), findPair l k = none →
      (l.foldl (fun acc kv => acc.insert kv.1 kv.2) acc).find k = acc.find k := by
  intro l
  induction l with
  | nil => intro acc _; rfl
  | cons hd tl ih =>
    intro acc h
    obtain ⟨k1, v1⟩ := hd
    by_cases hk : k1 = k
    · simp [findPair, hk] at h
    · simp only [findPair, hk, if_false] at h
      simp only [List.foldl_cons]
      rw [ih _ h]
      exact findPair_insertPair_ne acc.entries k1 v1 k hk

theorem find_foldl_insert_of_some (k v : String) :
    ∀ (l : List (String × String)) (acc : Params), (l.map Prod.fst).Nodup →
      findPair l k = some v →
      (l.foldl (fun acc kv => acc.insert kv.1 kv.2) acc).find k = some v := by
  intro l
  induction l with
  | nil => intro acc _ h; simp [findPair] at h
  | cons hd tl ih =>
    intro acc hnd h
    obtain ⟨k1, v1⟩ := hd
    simp only [List.map_cons, List.nodup_cons] at hnd
    by_cases hk : k1 = k
    · simp only [findPair, hk, if_true] at h
      cases h
      have htl : findPair tl k = none := by
        apply findPair_eq_none_of_not_mem
        rw [← hk]; exact hnd.1
      simp only [List.foldl_cons]
      rw [find_foldl_insert_of_none k tl _ htl, hk]
      exact findPair_insertPair_self acc.entries k v
    · simp only [findPair, hk, if_false] at h
      simp only [List.foldl_cons]
      exact ih _ hnd.2 h

theorem atList_mem {ε : Type} (path : String) : ∀ (l : List (String × ε)) (e : ε) (ps : Params),
    atList l path = some (e, ps) → e ∈ l.map Prod.snd := by
  intro l
  induction l with
  | nil => intro e ps h; simp [atList] at h
  | cons hd tl ih =>
    intro e ps h
    obtain ⟨pat, e1⟩ := hd
    simp only [atList] at h
    cases hm : matchPattern pat path with
    | some ps1 => rw [hm] at h; cases h; simp
    | none =>
      rw [hm] at h
      simp only [List.map_cons, List.mem_cons]
      exact Or.inr (ih e ps h)

theorem findMatcher_mem {ε : Type} (r : Router ε) (m : Method) (mt : Matcher ε)
    (h : r.findMatcher m = some mt) : mt ∈ r.methods.map Prod.snd := by
  unfold Router.findMatcher at h
  cases hf : r.methods.find? (fun kv => kv.1 == m) with
  | none => rw [hf] at h; simp at h
  | some kv =>
    rw [hf] at h
    simp at h
    subst h
    exact List.mem_map_of_mem _ (List.mem_of_find?_eq_some hf)

theorem lookup_user_mem {ε : Type} (r : Router ε) (m : Method) (p : String) (e : ε)
    (h : (r.lookup m p).ep = .user e) : e ∈ r.allEndpoints := by
  unfold Router.lookup at h
  cases hm : r.methodMatch m p with
  | some eps =>
    obtain ⟨e1, ps1⟩ := eps
    rw [hm] at h
    simp only [EndpointRef.user.injEq] at h
    subst h
    unfold Router.methodMatch at hm
    cases hf : r.findMatcher m with
    | none => rw [hf] at hm; simp at hm
    | some mt =>
      rw [hf] at hm
      simp only [Option.some_bind] at hm
      unfold Router.allEndpoints
      apply List.mem_append_left
      rw [List.mem_flatten]
      refine ⟨mt.routes.map Prod.snd, ?_, ?_⟩
      · rw [List.mem_map]
        have hmem := findMatcher_mem r m mt hf
        rw [List.mem_map] at hmem
        obtain ⟨kv, hkv, hsnd⟩ := hmem
        exact ⟨kv, hkv, by rw [hsnd]⟩
      · exact atList_mem p mt.routes e1 ps1 hm
  | none =>
    rw [hm] at h
    cases ha : r.all.atPath p with
    | some eps =>
      obtain ⟨e1, ps1⟩ := eps
      rw [ha] at h
      simp only [EndpointRef.user.injEq] at h
      subst h
      unfold Router.allEndpoints
      exact List.mem_append_right _ (atList_mem p r.all.routes e1 ps1 ha)
    | none =>
      rw [ha] at h
      by_cases ho : r.otherMethodMatches m p
      · simp [ho] at h
      · simp [ho] at h

theorem countEvent_append (ev : Event) (l1 l2 : List Event) :
    countEvent ev (l1 ++ l2) = countEvent ev l1 + countEvent ev l2 := by
  induction l1 with
  | nil => simp [countEvent]
  | cons hd tl ih => simp [countEvent, ih]; omega

theorem runChain_countEvent {γ : Type} (ev : Event)
    (hev : ∀ nm, Event.pre nm ≠ ev ∧ Event.post nm ≠ ev)
    (ep : Endpoint γ) (hep : ∀ req, countEvent ev (ep req).1 = 0) :
    ∀ (rest : List FilterB) (req : Request γ),
      countEvent ev (runChain ep rest req).1 = 0 := by
  intro rest
  induction rest with
  | nil => intro req; exact hep req
  | cons hd tl ih =>
    intro req
    cases hd with
    | wrap nm =>
      simp only [runChain]
      rw [show (Event.pre nm :: ((runChain ep tl req).1 ++ [Event.post nm]))
          = [Event.pre nm] ++ (runChain ep tl req).1 ++ [Event.post nm] by simp]
      rw [countEvent_append, countEvent_append, ih req]
      simp [countEvent, (hev nm).1, (hev nm).2]
    | stop resp => simp [runChain, countEvent]

theorem endpointRefCall_clean {γ : Type} (r : Router (Endpoint γ))
    (hclean : ∀ e, e ∈ r.allEndpoints → e.ctxClean) (m : Method) (p : String) :
    ((r.lookup m p).ep).call.ctxClean := by
  cases hrt : (r.lookup m p).ep with
  | user e =>
    have := hclean e (lookup_user_mem r m p e hrt)
    simpa [EndpointRef.call] using this
  | methodNotAllowed => intro req; exact ⟨rfl, rfl⟩
  | notFound => intro req; exact ⟨rfl, rfl⟩

theorem find?_setMatcher {ε : Type} (m : Method) (mt : Matcher ε) :
    ∀ ms : List (Method × Matcher ε),
      (setMatcher ms m mt).find? (fun kv => kv.1 == m) = some (m, mt) := by
  intro ms
  induction ms with
  | nil => simp [setMatcher, List.find?]
  | cons hd tl ih =>
    obtain ⟨k, v⟩ := hd
    by_cases h : k = m
    · simp [setMatcher, h, List.find?]
    · have hb : (k == m) = false := by simp [h]
      simp [setMatcher, hb, List.find?, ih]

theorem findMatcher_add {ε : Type} (r r2 : Router ε) (m : Method) (p : String) (e : ε)
    (h : r.add m p e = .ok r2) :
    r2.findMatcher m = some ⟨((r.findMatcher m).getD Matcher.new).routes ++ [(p, e)]⟩ := by
  unfold Router.add at h
  unfold Matcher.insert at h
  by_cases hc : ((r.findMatcher m).getD Matcher.new).routes.any (fun rr => rr.1 == p)
  · simp [hc, Except.map] at h
  · simp only [hc, if_false, Bool.false_eq_true, Except.map] at h
    cases h
    unfold Router.findMatcher
    simp [find?_setMatcher]

/-- Restates `runChain` at a nonempty chain in the exact shape of the source
`Next::next` (src/filter.rs lines 30-38): the head filter is applied with a
`Next` holding the remaining filters. -/
theorem next_cons {γ : Type} (ep : Endpoint γ) (f : FilterB) (rest : List FilterB)
    (req : Request γ) :
    Next.next ⟨ep, f :: rest⟩ req = f.apply req ⟨ep, rest⟩ := by
  cases f <;> rfl

/-- Restates `runChain` at the empty chain in the exact shape of the source
`Next::next`: with no filters left the endpoint itself is called. -/
theorem next_nil {γ : Type} (ep : Endpoint γ) (req : Request γ) :
    Next.next ⟨ep, []⟩ req = ep req := rfl

/-! Claim theorems. -/

/-- C1: `Router::lookup` observes the exact precedence of src/router.rs lines
54-89: a match in the trie registered for the method returns that endpoint
with its captured parameters; otherwise a match in the method-agnostic `all`
trie returns that endpoint with its captured parameters; otherwise, if any
other method's trie matches the path, the synthetic Method-Not-Allowed
endpoint is returned with an empty parameter set; otherwise the synthetic
Not-Found endpoint is returned with an empty parameter set. -/
theorem lookup_precedence {ε : Type} (r : Router ε) (m : Method) (p : String) :
    (∀ e ps, r.methodMatch m p = some (e, ps) → r.lookup m p = ⟨.user e, ps⟩)
  ∧ (r.methodMatch m p = none →
      ∀ e ps, r.all.atPath p = some (e, ps) → r.lookup m p = ⟨.user e, ps⟩)
  ∧ (r.methodMatch m p = none → r.all.atPath p = none →
      r.otherMethodMatches m p = true → r.lookup m p = ⟨.methodNotAllowed, Params.new⟩)
  ∧ (r.methodMatch m p = none → r.all.atPath p = none →
      r.otherMethodMatches m p = false → r.lookup m p = ⟨.notFound, Params.new⟩) := by
  refine ⟨fun e ps h => ?_, fun h1 e ps h2 => ?_, fun h1 h2 h3 => ?_, fun h1 h2 h3 => ?_⟩
  · simp [Router.lookup, h]
  · simp [Router.lookup, h1, h2]
  · simp [Router.lookup, h1, h2, h3]
  · simp [Router.lookup, h1, h2, h3]

/-- Witness for C1: on a concrete router (GET `/a`, POST `/c`, all-methods
`/b`) all four precedence arms are exercised at explicit inputs. -/
theorem lookup_precedence_witness :
    wRouter.lookup "GET" "/a" = ⟨.user 1, ⟨[]⟩⟩
  ∧ wRouter.lookup "GET" "/b" = ⟨.user 2, ⟨[]⟩⟩
  ∧ wRouter.lookup "GET" "/c" = ⟨.methodNotAllowed, Params.new⟩
  ∧ wRouter.lookup "GET" "/d" = ⟨.notFound, Params.new⟩ :=
  ⟨(lookup_precedence wRouter "GET" "/a").1 1 ⟨[]⟩ rfl,
   (lookup_precedence wRouter "GET" "/b").2.1 rfl 2 ⟨[]⟩ rfl,
   (lookup_precedence wRouter "GET" "/c").2.2.1 rfl rfl rfl,
   (lookup_precedence wRouter "GET" "/d").2.2.2 rfl rfl rfl⟩

/-- C2: capture semantics — `/echo/:name` against `/echo/bob` yields exactly
`{name: "bob"}`, `/static/*path` against `/static/a/b.txt` yields exactly
`{path: "a/b.txt"}` (the catch-all capture is the remaining path with no
leading slash), both at the matcher and through `Router::lookup`. -/
theorem capture_semantics :
    matchPattern "/echo/:name" "/echo/bob" = some ⟨[("name", "bob")]⟩
  ∧ matchPattern "/static/*path" "/static/a/b.txt" = some ⟨[("path", "a/b.txt")]⟩
  ∧ c2Router.lookup "GET" "/echo/bob" = ⟨.user 1, ⟨[("name", "bob")]⟩⟩
  ∧ c2Router.lookup "GET" "/static/a/b.txt" = ⟨.user 2, ⟨[("path", "a/b.txt")]⟩⟩ :=
  ⟨rfl, rfl, rfl, rfl⟩

/-- C3 counterexample: in the mounted dispatch of `/api/v2/user/bob` (outer
mount at `/api/:version`, child route `/user/:name`), the parameter set seen
by the child endpoint is not exactly `{version: "v2", name: "bob"}`: the
probe endpoint reports `version`, `name` and the reserved rest capture, and
the reserved capture `-highnoon-path-rest- = "user/bob"` from the outer
match is still present (the source passes the outer `params` unchanged into
`Request::new` and only adds the child captures on top). -/
theorem mount_merge_exact_set_counterexample :
    MountedApp.call c3ChildApp (fun u => ([], u)) c3OuterReq
      = some ([], .ok ⟨200, "v2,bob,user/bob"⟩)
  ∧ c3Merged.find reservedRest = some "user/bob" :=
  ⟨rfl, rfl⟩

/-- C3 amended: the parameter set of a mounted dispatch is the outer set
overlaid with the child lookup's captures, the child's value winning on any
shared key; in the example the merged set is `{version: "v2", name: "bob",
-highnoon-path-rest-: "user/bob"}` — the reserved rest capture of the outer
match remains present. -/
theorem mount_merge_overlay (outer inner : Params)
    (hnd : (inner.entries.map Prod.fst).Nodup) :
    (∀ k v, inner.find k = some v → (outer.merge inner).find k = some v)
  ∧ (∀ k, inner.find k = none → (outer.merge inner).find k = outer.find k)
  ∧ c3Merged.find "version" = some "v2"
  ∧ c3Merged.find "name" = some "bob"
  ∧ c3Merged.find reservedRest = some "user/bob"
  ∧ c3Merged = ⟨[("version", "v2"), (reservedRest, "user/bob"), ("name", "bob")]⟩ := by
  refine ⟨fun k v h => ?_, fun k h => ?_, rfl, rfl, rfl, rfl⟩
  · exact find_foldl_insert_of_some k v inner.entries outer hnd h
  · exact find_foldl_insert_of_none k inner.entries outer h

/-- Witness for C3 amended: the overlay equations at a concrete pair of
parameter sets sharing the key `a`. -/
theorem mount_merge_overlay_witness :
    (Params.merge ⟨[("a", "1"), ("c", "9")]⟩ ⟨[("a", "2"), ("b", "3")]⟩).find "a" = some "2"
  ∧ (Params.merge ⟨[("a", "1"), ("c", "9")]⟩ ⟨[("a", "2"), ("b", "3")]⟩).find "c" = some "9" :=
  ⟨(mount_merge_overlay ⟨[("a", "1"), ("c", "9")]⟩ ⟨[("a", "2"), ("b", "3")]⟩
      (by decide)).1 "a" "2" rfl,
   (mount_merge_overlay ⟨[("a", "1"), ("c", "9")]⟩ ⟨[("a", "2"), ("b", "3")]⟩
      (by decide)).2.1 "c" rfl⟩

/-- C4: for a request dispatched through `MountedApp::call` whose own
endpoints emit no context-instrumentation events, the caller-supplied
context conversion (instrumented to emit one `conv` event) runs exactly once,
no `newCtx` event appears (the child's `new_context` factory is never
invoked), and the dispatch result does not depend on the child's
`newContext` field at all. -/
theorem mounted_context_conversion {γ δ : Type} (child : App δ) (f : γ → δ)
    (req : Request γ) (out : Traced EResult)
    (hclean : child.ctxClean)
    (hcall : MountedApp.call child (fun c => ([Event.conv], f c)) req = some out) :
    countEvent Event.conv out.1 = 1
  ∧ countEvent Event.newCtx out.1 = 0
  ∧ ∀ x, MountedApp.call { child with newContext := x }
      (fun c => ([Event.conv], f c)) req = some out := by
  have h3 : ∀ x, MountedApp.call { child with newContext := x }
      (fun c => ([Event.conv], f c)) req = some out := fun x => hcall
  cases hfind : req.params.find reservedRest with
  | none =>
    rw [MountedApp.call] at hcall
    simp only [Request.intoParts] at hcall
    rw [hfind] at hcall
    simp at hcall
  | some pathRest =>
    rw [MountedApp.call] at hcall
    simp only [Request.intoParts] at hcall
    rw [hfind] at hcall
    simp only [Option.some.injEq] at hcall
    subst hcall
    have hcc : (((child.routes.lookup req.method pathRest).ep).call).ctxClean :=
      endpointRefCall_clean child.routes hclean req.method pathRest
    have hconv : ∀ req2, countEvent Event.conv
        (runChain ((child.routes.lookup req.method pathRest).ep).call child.filters req2).1
          = 0 :=
      runChain_countEvent Event.conv (fun nm => ⟨by simp, by simp⟩) _
        (fun req2 => (hcc req2).1) child.filters
    have hnew : ∀ req2, countEvent Event.newCtx
        (runChain ((child.routes.lookup req.method pathRest).ep).call child.filters req2).1
          = 0 :=
      runChain_countEvent Event.newCtx (fun nm => ⟨by simp, by simp⟩) _
        (fun req2 => (hcc req2).2) child.filters
    refine ⟨?_, ?_, h3⟩
    · simp only [Next.next, countEvent_append]
      rw [hconv]
      rfl
    · simp only [Next.next, countEvent_append]
      rw [hnew]
      rfl

/-- Witness for C4: the concrete mounted dispatch of `/api/v2/user/bob` into
`c4Child` emits exactly one `conv` event, no `newCtx` event, and is
unaffected by replacing the child's context factory. -/
theorem mounted_context_conversion_witness :
    countEvent Event.conv [Event.conv, Event.pre "child", Event.handle "u",
      Event.post "child"] = 1
  ∧ countEvent Event.newCtx [Event.conv, Event.pre "child", Event.handle "u",
      Event.post "child"] = 0
  ∧ ∀ x, MountedApp.call { c4Child with newContext := x }
      (fun c => ([Event.conv], (fun _ => (0 : Nat)) c)) c4Req
      = some ([Event.conv, Event.pre "child", Event.handle "u", Event.post "child"],
          .ok Response.ok) :=
  mounted_context_conversion c4Child (fun _ => 0) c4Req
    ([Event.conv, Event.pre "child", Event.handle "u", Event.post "child"], .ok Response.ok)
    (by
      intro e he
      simp only [c4Child, Router.allEndpoints, List.map_cons, List.map_nil,
        List.flatten, Matcher.new, List.append_nil, List.mem_cons,
        List.not_mem_nil, or_false, List.mem_singleton] at he
      subst he
      intro req
      exact ⟨rfl, rfl⟩)
    rfl

/-- C5: a pass-through filter chain registered in order `[A, B]` around a
handler endpoint `E` executes as A-pre, B-pre, E, B-post, A-post, and the
endpoint's result is returned unchanged (`App::with` appends to the filter
list, so list order is registration order, and `Next::next` runs the head
filter around the rest). -/
theorem filter_chain_order {γ : Type} (a b ename : String) (f : Request γ → EResult)
    (req : Request γ) :
    Next.next ⟨handlerEp ename f, [.wrap a, .wrap b]⟩ req
      = ([.pre a, .pre b, .handle ename, .post b, .post a], f req) := rfl

/-- C6: if the first filter returns a response without invoking its `Next`
continuation, no later filter and not the endpoint executes: the result is
that response and the trace is empty, whatever the rest of the chain and the
endpoint are. -/
theorem filter_short_circuit {γ : Type} (resp : Response) (bs : List FilterB)
    (ep : Endpoint γ) (req : Request γ) :
    Next.next ⟨ep, FilterB.stop resp :: bs⟩ req = ([], .ok resp) := rfl

/-- C7 counterexample: registering the reserved mount capture name as a
user-declared parameter is accepted, not rejected — `Router::add` succeeds on
the pattern `/x/:-highnoon-path-rest-` and the route is served, capturing
under the reserved name. -/
theorem reserved_name_accepted_counterexample :
    (Router.new.add "GET" c7Pattern (0 : Nat)).toOption.isSome = true
  ∧ (Router.new.add "GET" c7Pattern (0 : Nat)).map
      (fun r => r.lookup "GET" "/x/abc")
    = .ok ⟨.user 0, ⟨[(reservedRest, "abc")]⟩⟩ :=
  ⟨rfl, rfl⟩

/-- C7 amended: no registration-time check of the reserved name exists —
for every endpoint, registering a pattern that declares
`-highnoon-path-rest-` as a user parameter succeeds and the route is served
normally, capturing under the reserved name. -/
theorem reserved_name_registration_accepted {ε : Type} (e : ε) :
    (Router.new.add "GET" c7Pattern e).map (fun r => r.lookup "GET" "/x/abc")
      = .ok ⟨.user e, ⟨[(reservedRest, "abc")]⟩⟩ := rfl

/-- C8: a second registration of the same (method, pattern) pair fails at
registration time: `Router::add` hits the matcher's insert conflict and the
source panics through
`.expect("error inserting route into matcher")` (modelled as the `Except`
error) instead of overwriting or appending. -/
theorem duplicate_registration_rejected {ε : Type} (r r2 : Router ε) (m : Method)
    (p : String) (e1 e2 : ε) (h : r.add m p e1 = .ok r2) :
    r2.add m p e2 = .error "error inserting route into matcher" := by
  have hf := findMatcher_add r r2 m p e1 h
  rw [Router.add, hf]
  simp only [Option.getD_some]
  rw [Matcher.insert]
  have hany : (((r.findMatcher m).getD Matcher.new).routes ++ [(p, e1)]).any
      (fun rr => rr.1 == p) = true := by
    rw [List.any_append]
    simp
  simp [hany, Except.map]

/-- Witness for C8: adding GET `/a` twice — the first add succeeds and
produces `c8Router`, the second is rejected. -/
theorem duplicate_registration_rejected_witness :
    c8Router.add "GET" "/a" (2 : Nat) = .error "error inserting route into matcher" :=
  duplicate_registration_rejected Router.new c8Router "GET" "/a" 1 2 rfl

/-- C9: the centralized error conversion (`impl Responder for Error`)
converts an HTTP-intended error into exactly the carried response, and an
internal error into a bare 500 response that is independent of the
underlying cause. -/
theorem error_conversion_policy :
    (∀ resp, (Error.Http resp).intoResponse = .ok resp)
  ∧ (∀ e, (Error.Internal e).intoResponse = .ok (Response.ofStatus 500))
  ∧ (∀ e1 e2, (Error.Internal e1).intoResponse = (Error.Internal e2).intoResponse) :=
  ⟨fun _ => rfl, fun _ => rfl, fun _ _ => rfl⟩

/-- C10: `Request::param` returns the captured string when the parameter is
present, and otherwise an HTTP-intended error carrying a 400 Bad Request
response (an `Error::Http`, not an `Error::Internal`). -/
theorem request_param_spec {γ : Type} (r : Request γ) (n : String) :
    (∀ v, r.params.find n = some v → r.param n = .ok v)
  ∧ (r.params.find n = none → r.param n = .error (Error.Http (Response.ofStatus 400))) := by
  refine ⟨fun v h => ?_, fun h => ?_⟩
  · simp [Request.param, h]
  · simp [Request.param, h, Error.httpStatus]

/-- Witness for C10: on a concrete request capturing `name = bob`, a present
parameter is returned and a missing one yields the 400 error. -/
theorem request_param_spec_witness :
    c10Req.param "name" = .ok "bob"
  ∧ c10Req.param "missing" = .error (Error.Http (Response.ofStatus 400)) :=
  ⟨(request_param_spec c10Req "name").1 "bob" rfl,
   (request_param_spec c10Req "missing").2 rfl⟩

end Highnoon
